import Mathlib

/-!
A shallow embedding of the BFEM interpreter (src/tape.rs, src/parser.rs,
src/program.rs, src/errors.rs) and proofs checking the specification's
claims against it.

Conventions of the embedding:
* `u8` and `u128` values are `Nat`s; wrap-around is written explicitly
  (`% 256`, `% 2 ^ 128`) exactly where the Rust code wraps.
* Rust code that can panic (slice indexing out of bounds, `Option::unwrap`
  on `None`, debug-checked integer underflow) is modelled with an `Option`
  result whose `none` is the panic.
* Fallible operations returning `Result<T, BFError>` become
  `Option (Except BFError T)`: the outer `Option` is the panic channel,
  the `Except` the Rust `Result`.
* Loops with a mutable index are modelled by fuel-indexed recursion; the
  fuel is a modelling device only and every generic theorem either
  quantifies over it or uses a fuel provably beyond what the input needs.
* `format!` messages are modelled as a structured value (`BFMsg`), one
  constructor per distinct format string in the source, carrying exactly
  the values the source interpolates.
-/

namespace BFEM

/-- `TapeMode` from src/tape.rs: behaviour of pointer moves at the tape
boundary (Circular wraps, Append grows the tape, Panic errors). -/
inductive TapeMode where
  | Circular
  | Append
  | Panic
deriving DecidableEq, Repr

/-- `CellMode` from src/tape.rs: behaviour of cell arithmetic at the byte
range boundary (Circular wraps mod 256, Nothing saturates, Panic errors). -/
inductive CellMode where
  | Circular
  | Nothing
  | Panic
deriving DecidableEq, Repr

/-- `BFErrors` from src/errors.rs. The source enum has exactly one
variant, `RuntimeError`; every error the interpreter constructs uses it. -/
inductive BFErrors where
  | RuntimeError
deriving DecidableEq, Repr

/-- The distinct `format!` strings used to build `BFError` messages in
src/tape.rs and src/program.rs, with the interpolated values as fields, in
source order of interpolation. -/
inductive BFMsg where
  /-- "Cell \x7b\x7d (value \x7b\x7d) would go above \x7b\x7d if \x7b\x7d were added"
  (src/tape.rs `add`, Panic arm; the third argument is the literal `0` the
  source passes). -/
  | cellAbove (cell value limit count : Nat)
  /-- "Cell \x7b\x7d (value \x7b\x7d) would go below \x7b\x7d if \x7b\x7d were subtracted"
  (src/tape.rs `sub`, Panic arm; the third argument is `u8::MAX = 255`). -/
  | cellBelow (cell value limit count : Nat)
  /-- "Tape pointer would be below \x7b\x7d if moved left \x7b\x7d spaces from \x7b\x7d"
  (src/tape.rs `left`, Panic arm). -/
  | ptrBelow (limit count pointer : Nat)
  /-- "Tape pointer would be above \x7b\x7d if moved right \x7b\x7d spaces from \x7b\x7d"
  (src/tape.rs `right`, Panic arm; the first argument is `cells.len()`). -/
  | ptrAbove (limit count pointer : Nat)
  /-- "Alias \x7b\x7d was not found and pre-alloc was not disabled. This may
  indicate an error in the compiler" (src/program.rs `run_one`, Goto arm). -/
  | aliasNotFound (key : String)
deriving DecidableEq, Repr

/-- `BFError` from src/errors.rs: an error kind plus a message. -/
structure BFError where
  error : BFErrors
  message : BFMsg
deriving DecidableEq, Repr

/-- `Tape` from src/tape.rs. `size` is the construction-time capacity
(used by `clear`), `cells` the live buffer, `shift` an unused field the
source never reads in the operations modelled here. -/
structure Tape where
  size : Nat
  cells : List Nat
  tapeBehaviour : TapeMode
  cellBehaviour : CellMode
  pointer : Nat
  shift : Nat
deriving DecidableEq, Repr

/-- `zeros` from src/tape.rs. -/
def zeros (size : Nat) : List Nat :=
  List.replicate size 0

/-- `Tape::new` from src/tape.rs. -/
def Tape.new (tapeSize : Nat) (tapeMode : TapeMode) (cellMode : CellMode) : Tape :=
  { size := tapeSize
    cells := zeros tapeSize
    tapeBehaviour := tapeMode
    cellBehaviour := cellMode
    pointer := 0
    shift := 0 }

/-- `Tape::realign`. -/
def Tape.realign (t : Tape) : Tape :=
  { t with pointer := 0 }

/-- `Tape::clear`: re-zeros `self.size` cells (the construction-time size
field, not the current length). -/
def Tape.clear (t : Tape) : Tape :=
  { t with cells := zeros t.size }

/-- `Tape::get_value`: `self.cells[self.pointer]`; indexing out of bounds
panics, modelled as `none`. -/
def Tape.getValue (t : Tape) : Option Nat :=
  t.cells[t.pointer]?

/-- `Tape::get_value_at_index`. -/
def Tape.getValueAtIndex (t : Tape) (address : Nat) : Option Nat :=
  t.cells[address]?

/-- `Tape::set_value_at_index`. -/
def Tape.setValueAtIndex (t : Tape) (address value : Nat) : Option Tape :=
  if address < t.cells.length then some { t with cells := t.cells.set address value }
  else none

/-- `Tape::set_value`. -/
def Tape.setValue (t : Tape) (value : Nat) : Option Tape :=
  if t.pointer < t.cells.length then some { t with cells := t.cells.set t.pointer value }
  else none

/-- `Tape::get_pointer`. -/
def Tape.getPointer (t : Tape) : Nat :=
  t.pointer

/-- `Tape::set_pointer`: unconditional, no range check in the source. -/
def Tape.setPointer (t : Tape) (value : Nat) : Tape :=
  { t with pointer := value }

/-- `Tape::size`: returns `self.cells.len()` (not the `size` field). -/
def Tape.length (t : Tape) : Nat :=
  t.cells.length

/-- `Tape::add`. Circular: `overflowing_add` (wrap mod 256). Nothing:
`checked_add(..).unwrap_or(u8::MAX)` (saturate at 255). Panic: error on
overflow, message interpolating `(pointer, value, 0, count)`, cell left
unmodified. Reading the current cell out of bounds panics (`none`). -/
def Tape.add (t : Tape) (count : Nat) : Option (Except BFError Tape) :=
  match t.cellBehaviour with
  | .Circular =>
    match t.cells[t.pointer]? with
    | none => none
    | some value =>
      some (.ok { t with cells := t.cells.set t.pointer ((value + count) % 256) })
  | .Nothing =>
    match t.cells[t.pointer]? with
    | none => none
    | some value =>
      some (.ok { t with cells := t.cells.set t.pointer (if value + count ≤ 255 then value + count else 255) })
  | .Panic =>
    match t.cells[t.pointer]? with
    | none => none
    | some value =>
      if value + count > 255 then
        some (.error ⟨.RuntimeError, .cellAbove t.pointer value 0 count⟩)
      else
        some (.ok { t with cells := t.cells.set t.pointer (value + count) })

/-- `Tape::sub`. Circular: `overflowing_sub` (wrap mod 256, with the cell
value and count both below 256). Nothing: `checked_sub(..).unwrap_or(0)`,
which is exactly truncated subtraction. Panic: error on underflow, message
interpolating `(pointer, value, u8::MAX, count)`. -/
def Tape.sub (t : Tape) (count : Nat) : Option (Except BFError Tape) :=
  match t.cellBehaviour with
  | .Circular =>
    match t.cells[t.pointer]? with
    | none => none
    | some value =>
      some (.ok { t with cells := t.cells.set t.pointer (((value + 256) - count) % 256) })
  | .Nothing =>
    match t.cells[t.pointer]? with
    | none => none
    | some value =>
      some (.ok { t with cells := t.cells.set t.pointer (value - count) })
  | .Panic =>
    match t.cells[t.pointer]? with
    | none => none
    | some value =>
      if value < count then
        some (.error ⟨.RuntimeError, .cellBelow t.pointer value 255 count⟩)
      else
        some (.ok { t with cells := t.cells.set t.pointer (value - count) })

/-- `Tape::left`. Circular: if `pointer >= count` subtract, otherwise
`cells.len() - (count - pointer)`, whose u128 subtraction underflows (a
debug-checked panic, modelled `none`) when `count - pointer` exceeds the
length. Append: subtract when possible, otherwise set the pointer to 0 and
splice `count` zeros at the front. Panic: `overflowing_sub`, error on
underflow with the pointer unmodified. -/
def Tape.left (t : Tape) (count : Nat) : Option (Except BFError Tape) :=
  match t.tapeBehaviour with
  | .Circular =>
    if t.pointer ≥ count then
      some (.ok { t with pointer := t.pointer - count })
    else if count - t.pointer ≤ t.cells.length then
      some (.ok { t with pointer := t.cells.length - (count - t.pointer) })
    else
      none
  | .Append =>
    if t.pointer ≥ count then
      some (.ok { t with pointer := t.pointer - count })
    else
      some (.ok { t with pointer := 0, cells := zeros count ++ t.cells })
  | .Panic =>
    if t.pointer < count then
      some (.error ⟨.RuntimeError, .ptrBelow 0 count t.pointer⟩)
    else
      some (.ok { t with pointer := t.pointer - count })

/-- `Tape::right`. The source's Circular arm is character-for-character the
same as `left`'s Circular arm (it subtracts `count` from the pointer); the
embedding reproduces it as written. Append: unconditionally adds `count` to
the pointer and appends `count` zero cells. Panic: `overflowing_add` on
u128, error when it overflows or the result exceeds the `size` field
(strictly: `pointer > self.size`), message interpolating
`(cells.len(), count, pointer)`. -/
def Tape.right (t : Tape) (count : Nat) : Option (Except BFError Tape) :=
  match t.tapeBehaviour with
  | .Circular =>
    if t.pointer ≥ count then
      some (.ok { t with pointer := t.pointer - count })
    else if count - t.pointer ≤ t.cells.length then
      some (.ok { t with pointer := t.cells.length - (count - t.pointer) })
    else
      none
  | .Append =>
    some (.ok { t with pointer := t.pointer + count, cells := t.cells ++ zeros count })
  | .Panic =>
    if t.pointer + count ≥ 2 ^ 128 ∨ (t.pointer + count) % 2 ^ 128 > t.size then
      some (.error ⟨.RuntimeError, .ptrAbove t.cells.length count t.pointer⟩)
    else
      some (.ok { t with pointer := (t.pointer + count) % 2 ^ 128 })

/-- A `miette::SourceSpan`: `(offset, length)` into the source text. -/
abbrev Span := Nat × Nat

/-- `Instruction` from src/program.rs. Counts on `add`/`subtract` are u8,
on `left`/`right` u128; the construction sites keep them in range. -/
inductive Instruction where
  | add (count : Nat)
  | subtract (count : Nat)
  | loop (body : List (Span × Instruction))
  | left (count : Nat)
  | right (count : Nat)
  | input
  | output
  | goto (key : String)

/-- `DisableFlags` from src/main.rs. -/
structure DisableFlags where
  disableAliases : Bool
  disableOptimise : Bool
  disableAlloc : Bool
deriving DecidableEq, Repr

/-- `Parser` from src/parser.rs: the source text, flags, the scan index,
and the set of alias names seen (a `HashSet<String>`, modelled as a
deduplicated list; the claims only consult membership). -/
structure ParserSt where
  src : List Char
  flag : DisableFlags
  index : Nat
  aliases : List String
deriving DecidableEq, Repr

/-- `HashSet::insert` on the alias set: membership-only model. -/
def insertAlias (aliases : List String) (name : String) : List String :=
  if name ∈ aliases then aliases else aliases ++ [name]

/-- The opening brace character of alias syntax. -/
def openBrace : Char := Char.ofNat 123

/-- The closing brace character of alias syntax. -/
def closeBrace : Char := Char.ofNat 125

/-- The name-accumulation loop of `parse_one`'s alias arm: push characters
until the closing brace, returning the name and the index just past the
brace. Reading past the end of the text is `chars().nth(..).unwrap()` on
`None`, a panic (`none`). Fuel beyond `src.length` never runs out. -/
def parseAliasName : Nat → List Char → Nat → String → Option (String × Nat)
  | 0, _, _, _ => none
  | fuel + 1, src, index, name =>
    match src[index]? with
    | none => none
    | some character =>
      if character = closeBrace then some (name, index + 1)
      else parseAliasName fuel src (index + 1) (name.push character)

mutual

/-- `Parser::parse_one` from src/parser.rs. Whitespace is skipped by the
leading loop (each step re-reads with `unwrap`, so trailing whitespace at
end of input panics); then one character is dispatched. An unrecognised
character — including an opening brace when aliases are disabled — hits
the `panic!` arm (`none`). Returns the updated parser state and the
spanned instruction, the span being `(start_index, index - start_index)`. -/
def parseOne : Nat → ParserSt → Option (ParserSt × Span × Instruction)
  | 0, _ => none
  | fuel + 1, st =>
    match st.src[st.index]? with
    | none => none
    | some character =>
      if character.isWhitespace then
        parseOne fuel { st with index := st.index + 1 }
      else
        let startIndex := st.index
        if character = '+' then
          some ({ st with index := startIndex + 1 }, (startIndex, 1), .add 1)
        else if character = '-' then
          some ({ st with index := startIndex + 1 }, (startIndex, 1), .subtract 1)
        else if character = '>' then
          some ({ st with index := startIndex + 1 }, (startIndex, 1), .right 1)
        else if character = '<' then
          some ({ st with index := startIndex + 1 }, (startIndex, 1), .left 1)
        else if character = '[' then
          match parseLoopBody fuel { st with index := startIndex + 1 } with
          | none => none
          | some (st2, body) =>
            some (st2, (startIndex, st2.index - startIndex), .loop body)
        else if character = '.' then
          some ({ st with index := startIndex + 1 }, (startIndex, 1), .output)
        else if character = ',' then
          some ({ st with index := startIndex + 1 }, (startIndex, 1), .input)
        else if character = openBrace ∧ st.flag.disableAliases = false then
          match parseAliasName fuel st.src (startIndex + 1) "" with
          | none => none
          | some (name, index2) =>
            some ({ st with index := index2, aliases := insertAlias st.aliases name },
                  (startIndex, index2 - startIndex), .goto name)
        else
          none

/-- The `[` arm's body loop of `parse_one`: read the next character with
`unwrap` (panic at end of input, `none`), stop past the `]`, otherwise
parse one instruction and continue. -/
def parseLoopBody : Nat → ParserSt → Option (ParserSt × List (Span × Instruction))
  | 0, _ => none
  | fuel + 1, st =>
    match st.src[st.index]? with
    | none => none
    | some character =>
      if character = ']' then
        some ({ st with index := st.index + 1 }, [])
      else
        match parseOne fuel st with
        | none => none
        | some (st1, sp, instruction) =>
          match parseLoopBody fuel st1 with
          | none => none
          | some (st2, rest) => some (st2, (sp, instruction) :: rest)

end

/-- `Parser::is_instruction_consecutive`: `Goto`, `Input`, `Output`,
`Loop` are structural; everything else merges. -/
def isInstructionConsecutive (instruction : Instruction) : Bool :=
  match instruction with
  | .goto _ | .input | .output | .loop _ => false
  | _ => true

/-- `std::mem::discriminant` equality on two instructions. -/
def sameDiscriminant : Instruction → Instruction → Bool
  | .add _, .add _ => true
  | .subtract _, .subtract _ => true
  | .loop _, .loop _ => true
  | .left _, .left _ => true
  | .right _, .right _ => true
  | .input, .input => true
  | .output, .output => true
  | .goto _, .goto _ => true
  | _, _ => false

/-- `Parser::is_consecutive_okay`. -/
def isConsecutiveOkay (l r : Instruction) : Bool :=
  isInstructionConsecutive l && isInstructionConsecutive r && sameDiscriminant l r

/-- `Parser::set_count`: overwrite the count with `count as u8` (truncating
mod 256) for `Add`/`Subtract` and `count as u128` (a lossless widening of
`usize`) for `Left`/`Right`; other instructions are cloned unchanged. -/
def setCount (instruction : Instruction) (count : Nat) : Instruction :=
  match instruction with
  | .add _ => .add (count % 256)
  | .subtract _ => .subtract (count % 256)
  | .left _ => .left count
  | .right _ => .right count
  | i => i

/-- The inner merge-window loop of `Parser::optimise_consecutive`: starting
from `count = 1`, extend while `(index + count) < instructions.len() - 1`
and the next instruction merges with the start; fuel `instructions.length`
(one unit per iteration) never runs out. (The source's second read
of `instructions[index + count]` after the increment is dead — the value is
overwritten before use — and is in bounds by the loop condition.) -/
def windowGo : Nat → List (Span × Instruction) → Nat → Instruction → Nat → Nat
  | 0, _, _, _, count => count
  | fuel + 1, instructions, index, startInstruction, count =>
    if index + count < instructions.length - 1 then
      match instructions[index + count]? with
      | some (_, endInstruction) =>
        if isConsecutiveOkay startInstruction endInstruction then
          windowGo fuel instructions index startInstruction (count + 1)
        else count
      | none => count
    else count

mutual

/-- Fuel bound for `optimiseGo`: one unit per instruction node plus one per
list, an upper bound on the recursion depth of the optimiser. -/
def instrFuel : Instruction → Nat
  | .loop body => 1 + instrListFuel body
  | _ => 1

/-- See `instrFuel`. -/
def instrListFuel : List (Span × Instruction) → Nat
  | [] => 1
  | (_, i) :: rest => 1 + instrFuel i + instrListFuel rest
end

/-- The outer loop of `Parser::optimise_consecutive`: iterate the index
over the sibling list; a `Loop` is recursed into (its pushed span is
`(offset, inner.len())`), a `Goto` is re-pushed with span
`(offset, key.len() + 2)`, and any other instruction takes the merge
window, pushing `set_count(start, count)` with span `(offset, count)` and
advancing `index` by `count`. -/
def optimiseGo : Nat → List (Span × Instruction) → Nat → List (Span × Instruction)
  | 0, _, _ => []
  | fuel + 1, instructions, index =>
    if index < instructions.length then
      match instructions[index]? with
      | none => []
      | some (startSpan, startInstruction) =>
        match startInstruction with
        | .loop inner =>
          ((startSpan.1, inner.length), .loop (optimiseGo fuel inner 0)) ::
            optimiseGo fuel instructions (index + 1)
        | .goto key =>
          ((startSpan.1, key.length + 2), .goto key) ::
            optimiseGo fuel instructions (index + 1)
        | _ =>
          let count := windowGo instructions.length instructions index startInstruction 1
          ((startSpan.1, count), setCount startInstruction count) ::
            optimiseGo fuel instructions (index + count)
    else []

/-- `Parser::optimise_consecutive`: the outer loop started at index 0, with
fuel beyond the recursion depth it can reach. -/
def optimiseConsecutive (instructions : List (Span × Instruction)) : List (Span × Instruction) :=
  optimiseGo (instrListFuel instructions) instructions 0

/-- The `while self.index < self.src.len()` loop of `Parser::parse`. -/
def parseMain : Nat → ParserSt → Option (ParserSt × List (Span × Instruction))
  | 0, _ => none
  | fuel + 1, st =>
    if st.index < st.src.length then
      match parseOne fuel st with
      | none => none
      | some (st1, sp, instruction) =>
        match parseMain fuel st1 with
        | none => none
        | some (st2, rest) => some (st2, (sp, instruction) :: rest)
    else some (st, [])

/-- `Parser::parse` with explicit fuel: scan the whole text, then apply the
optimiser unless disabled. Returns the instruction list and the alias set. -/
def parseFuel (fuel : Nat) (src : List Char) (flag : DisableFlags) :
    Option (List (Span × Instruction) × List String) :=
  match parseMain fuel { src := src, flag := flag, index := 0, aliases := [] } with
  | none => none
  | some (st, instructions) =>
    some ((if flag.disableOptimise = false then optimiseConsecutive instructions else instructions),
          st.aliases)

/-- `Parser::parse`: each consumed character costs at most two levels of
fuel, so `2 * length + 4` never exhausts. -/
def parse (src : List Char) (flag : DisableFlags) :
    Option (List (Span × Instruction) × List String) :=
  parseFuel (2 * src.length + 4) src flag

/-- `BiMap::get_by_left` on the alias table (modelled as an association
list whose pairs are unique in both components). -/
def lookupLeft (aliases : List (String × Nat)) (key : String) : Option Nat :=
  (aliases.find? (fun p => p.1 = key)).map (·.2)

/-- `BiMap::get_by_right`. -/
def lookupRight (aliases : List (String × Nat)) (address : Nat) : Option String :=
  (aliases.find? (fun p => p.2 = address)).map (·.1)

/-- `BiMap::contains_right`. -/
def containsRight (aliases : List (String × Nat)) (address : Nat) : Bool :=
  aliases.any (fun p => p.2 = address)

/-- `BiMap::insert`: any pair colliding with the new key or the new
address is removed, then the pair is inserted (both directions at once). -/
def biInsert (aliases : List (String × Nat)) (key : String) (address : Nat) :
    List (String × Nat) :=
  (key, address) :: aliases.filter (fun p => p.1 ≠ key ∧ p.2 ≠ address)

/-- The scan loop of `Program::assign_alias_address`, descending from `i`:
skip an address while its cell is nonzero or some name already claims it.
`get_value_at_index` out of bounds panics, and decrementing the u128 index
below zero is a debug-checked underflow panic; both are `none`. -/
def findFreeFrom (t : Tape) (aliases : List (String × Nat)) : Nat → Option Nat
  | 0 =>
    match t.cells[0]? with
    | none => none
    | some value =>
      if value ≠ 0 ∨ containsRight aliases 0 = true then none else some 0
  | i + 1 =>
    match t.cells[i + 1]? with
    | none => none
    | some value =>
      if value ≠ 0 ∨ containsRight aliases (i + 1) = true then findFreeFrom t aliases i
      else some (i + 1)

/-- `Program::assign_alias_address`: start at `tape.size() - 1` (that is
`cells.len() - 1`; on an empty tape the u128 subtraction underflows,
`none`), scan downward for a free spot, and insert the binding, returning
the address and the updated table. -/
def assignAliasAddress (t : Tape) (aliases : List (String × Nat)) (key : String) :
    Option (Nat × List (String × Nat)) :=
  match t.cells.length with
  | 0 => none
  | n + 1 =>
    match findFreeFrom t aliases n with
    | none => none
    | some index => some (index, biInsert aliases key index)

/-- The executor state `Program::run_one` reads and writes: the tape, the
alias table, the pre-allocation flag, and the byte streams of the input
and output collaborators (`getch` polls, `print!` emits). -/
structure PState where
  tape : Tape
  aliases : List (String × Nat)
  disableAlloc : Bool
  input : List Nat
  output : List Nat
deriving DecidableEq, Repr

/-- Lift a tape operation's result into the executor: a tape panic stays a
panic, a `BFError` propagates by `?`, success updates the tape. -/
def liftTape (ps : PState) (r : Option (Except BFError Tape)) :
    Option (Except BFError PState) :=
  match r with
  | none => none
  | some (.error e) => some (.error e)
  | some (.ok t) => some (.ok { ps with tape := t })

mutual

/-- `Program::run_one` from src/program.rs. `Add`/`Subtract`/`Left`/
`Right` delegate to the tape. `Loop` re-reads the cell before each pass.
`Input` polls the input collaborator until a byte arrives (an exhausted
input stream polls forever, modelled `none`) and stores it. `Output`
emits the current cell. `Goto` resolves the alias, allocating lazily when
pre-allocation is disabled, and otherwise fails with the runtime error
whose message is the alias-not-found format string. -/
def runOne : Nat → PState → Instruction → Option (Except BFError PState)
  | 0, _, _ => none
  | fuel + 1, ps, instruction =>
    match instruction with
    | .add count => liftTape ps (ps.tape.add count)
    | .subtract count => liftTape ps (ps.tape.sub count)
    | .loop body => runLoop fuel ps body
    | .left count => liftTape ps (ps.tape.left count)
    | .right count => liftTape ps (ps.tape.right count)
    | .input =>
      match ps.input with
      | [] => none
      | b :: rest =>
        match ps.tape.setValue b with
        | none => none
        | some t => some (.ok { ps with tape := t, input := rest })
    | .output =>
      match ps.tape.getValue with
      | none => none
      | some value => some (.ok { ps with output := ps.output ++ [value] })
    | .goto key =>
      match lookupLeft ps.aliases key with
      | some address => some (.ok { ps with tape := ps.tape.setPointer address })
      | none =>
        if ps.disableAlloc then
          match assignAliasAddress ps.tape ps.aliases key with
          | none => none
          | some (index, aliases2) =>
            some (.ok { ps with aliases := aliases2, tape := ps.tape.setPointer index })
        else
          some (.error ⟨.RuntimeError, .aliasNotFound key⟩)

/-- The `for` loop over a sibling instruction list: run each in order,
aborting on the first fault. -/
def runList : Nat → PState → List (Span × Instruction) → Option (Except BFError PState)
  | 0, _, _ => none
  | _ + 1, ps, [] => some (.ok ps)
  | fuel + 1, ps, (_, instruction) :: rest =>
    match runOne fuel ps instruction with
    | none => none
    | some (.error e) => some (.error e)
    | some (.ok ps1) => runList fuel ps1 rest

/-- The `while self.tape.get_value() != 0` loop of the `Loop` arm. -/
def runLoop : Nat → PState → List (Span × Instruction) → Option (Except BFError PState)
  | 0, _, _ => none
  | fuel + 1, ps, body =>
    match ps.tape.getValue with
    | none => none
    | some value =>
      if value ≠ 0 then
        match runList fuel ps body with
        | none => none
        | some (.error e) => some (.error e)
        | some (.ok ps1) => runLoop fuel ps1 body
      else some (.ok ps)

end

/-- `Program::run`: `tape.clear()`, `tape.realign()`, then the instruction
list in order (the source reports the first fault and exits; the embedding
returns it). -/
def run (fuel : Nat) (ps : PState) (instructions : List (Span × Instruction)) :
    Option (Except BFError PState) :=
  runList fuel { ps with tape := ps.tape.clear.realign } instructions

/-! ## Inputs used by the theorems -/

/-- A freshly constructed tape of size 5 with both policies Circular
(pointer 0). -/
def tape5 : Tape := Tape.new 5 .Circular .Circular

/-- A size-5 tape under the Panic (Fail) pointer policy. -/
def tapeP5 : Tape := Tape.new 5 .Panic .Circular

/-- A size-5 tape under the Append pointer policy, pointer 0. -/
def tapeA5 : Tape := Tape.new 5 .Append .Circular

/-- A size-5 tape under the Append pointer policy, pointer 4. -/
def tapeA54 : Tape := { Tape.new 5 .Append .Circular with pointer := 4 }

/-- Three unit `Add` instructions with the spans the parser gives
`+++`. -/
def units3 : List (Span × Instruction) :=
  [((0, 1), .add 1), ((1, 1), .add 1), ((2, 1), .add 1)]

/-- The CLI-default flags: nothing disabled (optimiser on). -/
def flagsOpt : DisableFlags :=
  { disableAliases := false, disableOptimise := false, disableAlloc := false }

/-- Flags with only the optimiser disabled. -/
def flagsNoOpt : DisableFlags :=
  { disableAliases := false, disableOptimise := true, disableAlloc := false }

/-- A source text of 257 consecutive plus signs. -/
def src257 : List Char := List.replicate 257 '+'

/-- The parse of `src257`: 257 unit `Add`s, the i-th spanning `(i, 1)`. -/
def raw257 : List (Span × Instruction) :=
  (List.range 257).map (fun i => ((i, 1), Instruction.add 1))

/-- What the optimiser turns `raw257` into: the merge window reaches
count 256, truncated by `as u8` to 0, plus the unmerged trailing unit. -/
def opt257 : List (Span × Instruction) :=
  [((0, 256), .add 0), ((256, 1), .add 1)]

/-- Executor state on a 1-cell tape with the Nothing (Clamp) cell
policy. -/
def ps1N : PState :=
  { tape := Tape.new 1 .Circular .Nothing, aliases := [], disableAlloc := false,
    input := [], output := [] }

/-- `Tape::add` twice in sequence, the second only when the first
succeeds (the executor's `?` propagation between two `Add`
instructions). -/
def addSeq (t : Tape) (a b : Nat) : Option (Except BFError Tape) :=
  match t.add a with
  | none => none
  | some (.error e) => some (.error e)
  | some (.ok t1) => t1.add b

/-- One-cell tape, Circular cell policy. -/
def tapeC1 : Tape := Tape.new 1 .Circular .Circular

/-- One-cell tape, Nothing (Clamp) cell policy. -/
def tapeN1 : Tape := Tape.new 1 .Circular .Nothing

/-- One-cell tape, Panic (Fail) cell policy. -/
def tapeF1 : Tape := Tape.new 1 .Circular .Panic

/-- Size-10 tape whose only nonzero cell is at index 2. -/
def tenTape : Tape :=
  { Tape.new 10 .Circular .Circular with cells := [0, 0, 7, 0, 0, 0, 0, 0, 0, 0] }

/-- Executor state with an empty alias table and pre-allocation enabled
(`disable_alloc = false`). -/
def psGoto : PState :=
  { tape := Tape.new 1 .Circular .Circular, aliases := [], disableAlloc := false,
    input := [], output := [] }

/-- One-cell tape under the Panic cell policy whose cell already holds
200. -/
def tapePanic200 : Tape := { Tape.new 1 .Circular .Panic with cells := [200] }

/-- The executor state `ps1N` with its single cell holding `v`. -/
def psN (v : Nat) : PState := { ps1N with tape := { ps1N.tape with cells := [v] } }

/-! ## Helper lemmas -/

/-- Executing a list of unit `Add`s on the one-cell Nothing-policy tape
saturates the cell at 255: each step clamps, so the final value is
`min (v + length) 255`. -/
theorem runList_unit_adds (l : List (Span × Instruction)) :
    ∀ (fuel v : Nat), l.length < fuel → (∀ p ∈ l, p.2 = Instruction.add 1) → v ≤ 255 →
    runList fuel (psN v) l =
      some (.ok (psN (if v + l.length ≤ 255 then v + l.length else 255))) := by
  induction l with
  | nil =>
    intro fuel v hfuel _ hv
    cases fuel with
    | zero => omega
    | succ f =>
      have hval : (if v + ([] : List (Span × Instruction)).length ≤ 255 then
          v + ([] : List (Span × Instruction)).length else 255) = v := by
        simp; omega
      rw [hval]
      rfl
  | cons head rest ih =>
    intro fuel v hfuel hall hv
    cases fuel with
    | zero => omega
    | succ f =>
      cases f with
      | zero => simp at hfuel
      | succ f2 =>
        obtain ⟨sp, inst⟩ := head
        have hinst : inst = Instruction.add 1 := hall (sp, inst) (by simp)
        subst hinst
        have hstep : runList (f2 + 1 + 1) (psN v) ((sp, Instruction.add 1) :: rest) =
            runList (f2 + 1) (psN (if v + 1 ≤ 255 then v + 1 else 255)) rest := by
          simp [runList, runOne, liftTape, Tape.add, psN, ps1N, Tape.new, zeros]
        rw [hstep]
        rw [ih (f2 + 1) _ (by simp at hfuel ⊢; omega)
          (fun p hp => hall p (List.mem_cons_of_mem _ hp)) (by split <;> omega)]
        have hval : (if (if v + 1 ≤ 255 then v + 1 else 255) + rest.length ≤ 255 then
            (if v + 1 ≤ 255 then v + 1 else 255) + rest.length else 255) =
            (if v + ((sp, Instruction.add 1) :: rest).length ≤ 255 then
            v + ((sp, Instruction.add 1) :: rest).length else 255) := by
          simp; split_ifs <;> omega
        rw [hval]

/-- The scan of `assign_alias_address` returns the greatest index at or
below its starting point whose cell is zero and which no name claims. -/
theorem findFreeFrom_eligible (t : Tape) (al : List (String × Nat)) :
    ∀ i a, findFreeFrom t al i = some a →
      a ≤ i ∧ t.cells[a]? = some 0 ∧ containsRight al a = false ∧
      ∀ j, a < j → j ≤ i → ¬(t.cells[j]? = some 0 ∧ containsRight al j = false) := by
  intro i
  induction i with
  | zero =>
    intro a ha
    simp only [findFreeFrom] at ha
    cases hc : t.cells[0]? with
    | none => rw [hc] at ha; simp at ha
    | some v =>
      rw [hc] at ha
      have ha2 : (if v ≠ 0 ∨ containsRight al 0 = true then none else some 0) = some a := ha
      by_cases hcond : v ≠ 0 ∨ containsRight al 0 = true
      · rw [if_pos hcond] at ha2; simp at ha2
      · rw [if_neg hcond] at ha2
        push_neg at hcond
        obtain ⟨hv, hcr⟩ := hcond
        have ha3 := Option.some.inj ha2
        subst ha3
        refine ⟨Nat.le_refl 0, by rw [hc, hv], by simpa using hcr, ?_⟩
        intro j hj1 hj2
        omega
  | succ i ih =>
    intro a ha
    simp only [findFreeFrom] at ha
    cases hc : t.cells[i + 1]? with
    | none => rw [hc] at ha; simp at ha
    | some v =>
      rw [hc] at ha
      have ha2 : (if v ≠ 0 ∨ containsRight al (i + 1) = true then findFreeFrom t al i
          else some (i + 1)) = some a := ha
      by_cases hcond : v ≠ 0 ∨ containsRight al (i + 1) = true
      · rw [if_pos hcond] at ha2
        obtain ⟨h1, h2, h3, h4⟩ := ih a ha2
        refine ⟨by omega, h2, h3, ?_⟩
        intro j hj1 hj2
        rcases Nat.lt_or_ge j (i + 1) with hj | hj
        · exact h4 j hj1 (by omega)
        · have hj' : j = i + 1 := by omega
          subst hj'
          rintro ⟨hz, hcr⟩
          rw [hc] at hz
          have hv0 : v = 0 := Option.some.inj hz
          rcases hcond with hv | hc2
          · exact hv hv0
          · rw [hcr] at hc2
            exact Bool.noConfusion hc2
      · rw [if_neg hcond] at ha2
        have ha3 := Option.some.inj ha2
        subst ha3
        push_neg at hcond
        obtain ⟨hv, hcr⟩ := hcond
        refine ⟨Nat.le_refl _, by rw [hc]; simpa using hv, by simpa using hcr, ?_⟩
        intro j hj1 hj2
        omega

/-! ## Claims -/

/-- Claim C1. Under the Circular pointer policy `moveLeft(1)` on a size-5
tape does wrap the pointer from 0 to 4, but `moveRight(1)` from pointer 0
also yields pointer 4: the source's `Tape::right` Circular arm is the same
subtracting code as `Tape::left`, so `right` moves the pointer toward
lower addresses instead of higher ones, contradicting the claim that
MoveRight(1) from pointer 0 gives pointer 1. -/
theorem circular_right_moves_left :
    tape5.left 1 = some (.ok { tape5 with pointer := 4 }) ∧
    tape5.right 1 = some (.ok { tape5 with pointer := 4 }) ∧
    (4 : Nat) ≠ 1 :=
  ⟨rfl, rfl, by decide⟩

/-- Claim C3 (counterpart evaluation). The optimiser is not idempotent:
`set_count` overwrites each merged count with the number of instructions
in the window, not the sum of their counts, so re-optimising
`[Add 2, Add 1]` (itself the optimiser's output on three unit Adds)
collapses `Add 2` back to `Add 1`. -/
theorem optimise_not_idempotent :
    optimiseConsecutive units3 = [((0, 2), .add 2), ((2, 1), .add 1)] ∧
    optimiseConsecutive (optimiseConsecutive units3) =
      [((0, 1), .add 1), ((2, 1), .add 1)] ∧
    optimiseConsecutive (optimiseConsecutive units3) ≠ optimiseConsecutive units3 := by
  refine ⟨rfl, rfl, fun h => ?_⟩
  have h2 : ([((0, 1), Instruction.add 1), ((2, 1), .add 1)] : List (Span × Instruction)) =
      [((0, 2), .add 2), ((2, 1), .add 1)] := h
  simp at h2

/-- Claim C4 (counterpart evaluation). The merge window's loop condition
`(index + count) < instructions.len() - 1` excludes the final element of
the sibling list: the trailing run `+ + +` merges to `Add 2` followed by a
leftover `Add 1`, not to the single `Add 3` the claim requires. -/
theorem trailing_run_not_fully_merged :
    optimiseConsecutive units3 = [((0, 2), .add 2), ((2, 1), .add 1)] ∧
    optimiseConsecutive units3 ≠ [((0, 3), .add 3)] := by
  refine ⟨rfl, fun h => ?_⟩
  have h2 : ([((0, 2), Instruction.add 2), ((2, 1), .add 1)] : List (Span × Instruction)) =
      [((0, 3), .add 3)] := h
  simp at h2

/-- Claim C5, counterexample. The claim says parsing `[+++` fails with a
structured UnbalancedLoopError and no crash; in the source the loop-body
scan reaches end of input and `chars().nth(self.index).unwrap()` panics on
`None` (modelled `none`), so no error value with a span is ever
produced — the program's only error kind is `RuntimeError` and parsing
has no error channel at all. -/
theorem unbalanced_open_bracket_crashes :
    parse "[+++".toList flagsOpt = none :=
  rfl

/-- Claim C5, amended. Parsing a `[` followed by plus signs and no `]`
aborts with a panic — the parser's `unwrap` of the missing next character
at end of input — rather than returning any structured error; the
out-of-range lookup itself is a safe `None` (`chars().nth` past the end),
so no access beyond the text occurs. The statement holds for every amount
of extra fuel, so the `none` is the source's panic, not an artefact of
the fuel encoding. -/
theorem unbalanced_open_bracket_panics :
    ∀ extra : Nat, parseFuel (extra + 12) "[+++".toList flagsOpt = none :=
  fun _ => rfl

/-- Witness for `unbalanced_open_bracket_panics` at a concrete amount of
extra fuel. -/
theorem unbalanced_open_bracket_panics_witness :
    parseFuel (100 + 12) "[+++".toList flagsOpt = none :=
  unbalanced_open_bracket_panics 100

/-- Claim C6 (counterpart evaluation). Under the Panic pointer policy the
boundary check is `pointer > self.size`, not `>=`: moving right by 5 from
pointer 0 on a size-5 tape returns `Ok` and leaves the pointer at 5, which
equals `cells.len()` — an invalid cell index, so the claimed invariant
`pointer < cells.len()` after every successful operation is violated (and
the next `get_value` would index out of bounds). -/
theorem panic_right_allows_pointer_at_length :
    tapeP5.right 5 = some (.ok { tapeP5 with pointer := 5 }) ∧
    ¬ Tape.pointer { tapeP5 with pointer := 5 } <
        (Tape.cells { tapeP5 with pointer := 5 }).length :=
  ⟨rfl, by decide⟩

/-- Claim C7, counterexample. Under the Append policy a `moveRight` that
stays strictly inside the current tape still grows it: from pointer 0 on a
size-5 tape, `right(1)` appends one zero cell, giving length 6 where the
claim requires the size to stay 5. -/
theorem append_right_grows_without_crossing :
    tapeA5.right 1 = some (.ok { tapeA5 with pointer := 1, cells := tapeA5.cells ++ zeros 1 }) ∧
    (Tape.cells { tapeA5 with pointer := 1, cells := tapeA5.cells ++ zeros 1 }).length = 6 ∧
    (6 : Nat) ≠ 5 :=
  ⟨rfl, rfl, by decide⟩

/-- Claim C7, amended. Under the Append policy: `moveLeft(n)` leaves the
tape unchanged when `n ≤ pointer` and otherwise prepends exactly `n` zero
cells with the pointer at 0 (inside the new region); `moveRight(n)`
unconditionally appends exactly `n` zero cells and advances the pointer by
`n`, even when no boundary is crossed. The claim's concrete example (size
5, pointer 4, MoveRight(3) → size 8, pointer 7) holds. -/
theorem append_move_spec (t : Tape) (n : Nat) (h : t.tapeBehaviour = .Append) :
    (n ≤ t.pointer → t.left n = some (.ok { t with pointer := t.pointer - n })) ∧
    (t.pointer < n →
      t.left n = some (.ok { t with pointer := 0, cells := zeros n ++ t.cells })) ∧
    t.right n = some (.ok { t with pointer := t.pointer + n, cells := t.cells ++ zeros n }) := by
  refine ⟨fun hle => ?_, fun hlt => ?_, ?_⟩
  · simp [Tape.left, h, hle]
  · simp [Tape.left, h, Nat.not_le.mpr hlt]
  · simp [Tape.right, h]

/-- Witness for `append_move_spec`: the claim's own example, tape size 5
(Append), pointer 4, `MoveRight(3)` → pointer 7, tape size 8. -/
theorem append_move_witness :
    tapeA54.right 3 = some (.ok { tapeA54 with pointer := 4 + 3, cells := tapeA54.cells ++ zeros 3 }) ∧
    Tape.pointer { tapeA54 with pointer := 4 + 3, cells := tapeA54.cells ++ zeros 3 } = 7 ∧
    (Tape.cells { tapeA54 with pointer := 4 + 3, cells := tapeA54.cells ++ zeros 3 }).length = 8 :=
  ⟨(append_move_spec tapeA54 3 rfl).2.2, rfl, rfl⟩


/-- Claim C8. From a current cell holding 0, `add(200)` then `add(100)`:
under the Circular cell policy the cell ends at 44 (300 mod 256); under
Nothing (Clamp) it saturates at 255; under Panic (Fail) the first add
succeeds leaving the cell at 200 and the second returns the runtime error
whose message interpolates the address (`pointer`), current value (200),
the literal limit 0 the source passes, and the delta (100) — the error
path returns without writing the cell, so it stays 200. -/
theorem add200_add100_spec (t : Tape) (h : t.cells[t.pointer]? = some 0) :
    (t.cellBehaviour = .Circular →
      addSeq t 200 100 = some (.ok { t with cells := (t.cells.set t.pointer 200).set t.pointer 44 })) ∧
    (t.cellBehaviour = .Nothing →
      addSeq t 200 100 = some (.ok { t with cells := (t.cells.set t.pointer 200).set t.pointer 255 })) ∧
    (t.cellBehaviour = .Panic →
      t.add 200 = some (.ok { t with cells := t.cells.set t.pointer 200 }) ∧
      Tape.getValue { t with cells := t.cells.set t.pointer 200 } = some 200 ∧
      addSeq t 200 100 = some (.error ⟨.RuntimeError, .cellAbove t.pointer 200 0 100⟩)) := by
  obtain ⟨hlt, -⟩ := List.getElem?_eq_some.mp h
  have hset : (t.cells.set t.pointer 200)[t.pointer]? = some 200 :=
    List.getElem?_set_eq_of_lt 200 hlt
  refine ⟨fun hm => ?_, fun hm => ?_, fun hm => ?_⟩
  · simp [addSeq, Tape.add, hm, h, hset]
  · simp [addSeq, Tape.add, hm, h, hset]
  · refine ⟨?_, ?_, ?_⟩ <;> simp [addSeq, Tape.add, Tape.getValue, hm, h, hset]

/-- Witness for `add200_add100_spec` on concrete one-cell tapes, one per
cell policy. -/
theorem add200_add100_witness :
    tapeC1.cells[tapeC1.pointer]? = some 0 ∧
    addSeq tapeC1 200 100 =
      some (.ok { tapeC1 with cells := (tapeC1.cells.set tapeC1.pointer 200).set tapeC1.pointer 44 }) ∧
    addSeq tapeN1 200 100 =
      some (.ok { tapeN1 with cells := (tapeN1.cells.set tapeN1.pointer 200).set tapeN1.pointer 255 }) ∧
    addSeq tapeF1 200 100 = some (.error ⟨.RuntimeError, .cellAbove tapeF1.pointer 200 0 100⟩) :=
  ⟨rfl, (add200_add100_spec tapeC1 rfl).1 rfl, (add200_add100_spec tapeN1 rfl).2.1 rfl,
    ((add200_add100_spec tapeF1 rfl).2.2 rfl).2.2⟩

/-- Claim C9. When the scan finds a spot (`hrun`) for a name with no
existing binding (`hfresh`, the situation at every call site, under which
"claimed by another name" and "claimed by any name" coincide),
`assignAddress` returns the highest address whose cell value is zero and
which is not already claimed — no higher address is eligible — and binds
it to the name in both directions of the table. -/
theorem assignAliasAddress_spec (t : Tape) (al : List (String × Nat)) (key : String)
    (addr : Nat) (al2 : List (String × Nat))
    (hrun : assignAliasAddress t al key = some (addr, al2))
    (hfresh : lookupLeft al key = none) :
    addr < t.cells.length ∧ t.cells[addr]? = some 0 ∧ containsRight al addr = false ∧
    (∀ j, addr < j → j < t.cells.length →
      ¬(t.cells[j]? = some 0 ∧ containsRight al j = false)) ∧
    lookupLeft al2 key = some addr ∧ lookupRight al2 addr = some key := by
  unfold assignAliasAddress at hrun
  cases hl : t.cells.length with
  | zero => rw [hl] at hrun; simp at hrun
  | succ n =>
    rw [hl] at hrun
    have hrun2 : (match findFreeFrom t al n with
        | none => none
        | some index => some (index, biInsert al key index)) = some (addr, al2) := hrun
    cases hf : findFreeFrom t al n with
    | none => rw [hf] at hrun2; simp at hrun2
    | some idx =>
      rw [hf] at hrun2
      simp only [Option.some.injEq, Prod.mk.injEq] at hrun2
      obtain ⟨rfl, rfl⟩ := hrun2
      obtain ⟨h1, h2, h3, h4⟩ := findFreeFrom_eligible t al n idx hf
      refine ⟨by omega, h2, h3, ?_, ?_, ?_⟩
      · intro j hj1 hj2
        exact h4 j hj1 (by omega)
      · simp [lookupLeft, biInsert]
      · simp [lookupRight, biInsert]

/-- Witness for `assignAliasAddress_spec`: the claim's example. On a
size-10 tape whose only nonzero cell is index 2, alias "A" binds to
address 9; the theorem is then applied to the allocation of "B", which
binds to address 8. -/
theorem assignAliasAddress_witness :
    assignAliasAddress tenTape [] "A" = some (9, [("A", 9)]) ∧
    assignAliasAddress tenTape [("A", 9)] "B" = some (8, [("B", 8), ("A", 9)]) ∧
    (8 < tenTape.cells.length ∧ tenTape.cells[8]? = some 0 ∧ containsRight [("A", 9)] 8 = false ∧
      (∀ j, 8 < j → j < tenTape.cells.length →
        ¬(tenTape.cells[j]? = some 0 ∧ containsRight [("A", 9)] j = false)) ∧
      lookupLeft [("B", 8), ("A", 9)] "B" = some 8 ∧
      lookupRight [("B", 8), ("A", 9)] 8 = some "B") :=
  ⟨rfl, rfl, assignAliasAddress_spec tenTape [("A", 9)] "B" 8 [("B", 8), ("A", 9)] rfl rfl⟩

set_option maxRecDepth 16000 in
set_option maxHeartbeats 2000000 in
/-- Claim C2 (counterpart evaluation). Optimisation is not
semantics-preserving: on the program of 257 consecutive `+` the raw parse
is 257 unit `Add`s, while the optimiser merges a 256-wide window whose
count is truncated by `count as u8` to `Add 0` (followed by the unmerged
trailing `Add 1`). Executed from the same initial one-cell tape under the
Nothing (Clamp) cell policy, the unoptimised tree leaves the cell
saturated at 255 while the optimised tree leaves it at 1 — different
final tape contents from identical initial state (the output stream is
empty on both sides). -/
theorem optimised_run_differs :
    parse src257 flagsNoOpt = some (raw257, []) ∧
    parse src257 flagsOpt = some (opt257, []) ∧
    run 600 ps1N raw257 = some (.ok (psN 255)) ∧
    run 600 ps1N opt257 = some (.ok (psN 1)) ∧
    psN 255 ≠ psN 1 := by
  have hlen : raw257.length = 257 := by simp [raw257]
  have hall : ∀ p ∈ raw257, p.2 = Instruction.add 1 := by
    intro p hp
    simp [raw257, List.mem_map] at hp
    obtain ⟨i, hi, rfl⟩ := hp
    rfl
  have h := runList_unit_adds raw257 600 0 (by omega) hall (by omega)
  rw [hlen] at h
  norm_num at h
  exact ⟨rfl, rfl, h, rfl, by decide⟩

/-- Claim C10, counterexample. The fault produced when a `Goto` finds no
binding despite pre-allocation has the same error kind as a cell-range
fault: the source's `BFErrors` enum has the single variant `RuntimeError`,
used for both, so the kinds are not distinct — only the message text
differs. -/
theorem alias_fault_kind_not_distinct :
    runOne 1 psGoto (.goto "A") = some (.error ⟨.RuntimeError, .aliasNotFound "A"⟩) ∧
    tapePanic200.add 100 = some (.error ⟨.RuntimeError, .cellAbove 0 200 0 100⟩) ∧
    (BFError.mk .RuntimeError (.aliasNotFound "A")).error =
      (BFError.mk .RuntimeError (.cellAbove 0 200 0 100)).error :=
  ⟨rfl, rfl, rfl⟩

/-- Claim C10, amended. With pre-allocation enabled, executing
`Goto(name)` for an unbound name fails with a `BFError` whose message is
the alias-not-found text naming the alias (and hinting at a compiler
error); its kind is `RuntimeError`, the program's only error kind, shared
with every user-triggered fault — the distinction is carried by the
message alone. -/
theorem goto_missing_alias_spec (fuel : Nat) (ps : PState) (key : String)
    (h1 : lookupLeft ps.aliases key = none) (h2 : ps.disableAlloc = false) :
    runOne (fuel + 1) ps (.goto key) = some (.error ⟨.RuntimeError, .aliasNotFound key⟩) ∧
    ∀ e : BFErrors, e = .RuntimeError := by
  refine ⟨?_, fun e => by cases e; rfl⟩
  simp [runOne, h1, h2]

/-- Witness for `goto_missing_alias_spec` at a concrete state: empty
alias table, pre-allocation enabled, `Goto("A")`. -/
theorem goto_missing_alias_witness :
    lookupLeft psGoto.aliases "A" = none ∧ psGoto.disableAlloc = false ∧
    (runOne (0 + 1) psGoto (.goto "A") = some (.error ⟨.RuntimeError, .aliasNotFound "A"⟩) ∧
      ∀ e : BFErrors, e = .RuntimeError) :=
  ⟨rfl, rfl, goto_missing_alias_spec 0 psGoto "A" rfl rfl⟩

end BFEM
